import Mathlib

/-!
Verification of the LLM-call resilience and caching layer of the
repository, a shallow embedding of the Python sources `bot/caching.py`,
`utils/cache_manager.py`, `bot/modules/cache.py`, `bot/modules/ai_service.py`,
`bot/ai_handler.py` (key rotation and cache interaction of
`generate_ai_response`) and `bot/games/guess.py`.

Python dicts are modelled as insertion-ordered association lists
(`List (κ × β)`), matching the iteration order CPython guarantees; `time.time()`
is modelled as a `Nat` parameter threaded through the calls; module-level
mutable state is passed and returned explicitly; the HTTP call to the LLM
provider is a parameter (`oracle`) giving the outcome for each key.
-/

set_option autoImplicit false

namespace ThePerfect

/-! Python-dict primitives (insertion-ordered association lists) -/

/-- Lookup `d[k]`: first binding of `k` (keys are unique in a dict, so this is
the binding). Returns `none` when the key is absent. -/
def dictLookup {κ β : Type} [BEq κ] (l : List (κ × β)) (k : κ) : Option β :=
  (l.find? (fun p => p.1 == k)).map (·.2)

/-- Store `d[k] = v`: updating an existing key keeps its position in iteration
order; a fresh key is appended at the end, exactly as in CPython. -/
def dictSet {κ β : Type} [BEq κ] (l : List (κ × β)) (k : κ) (v : β) : List (κ × β) :=
  if (dictLookup l k).isSome then
    l.map (fun p => if p.1 == k then (k, v) else p)
  else
    l ++ [(k, v)]

/-- Deletion, `del d[k]` / `d.pop(k)` (ignoring the KeyError case, which the embedded
code never reaches: it only deletes keys it has just looked up). -/
def dictDel {κ β : Type} [BEq κ] (l : List (κ × β)) (k : κ) : List (κ × β) :=
  l.filter (fun p => p.1 != k)

/-- Reordering `OrderedDict.move_to_end(k)`: the binding of `k` moves to the back of the
iteration order, keeping its value. Only called on present keys. -/
def dictMoveToEnd {κ β : Type} [BEq κ] (l : List (κ × β)) (k : κ) : List (κ × β) :=
  match l.find? (fun p => p.1 == k) with
  | none => l
  | some e => l.filter (fun p => p.1 != k) ++ [e]

/-! Embedding of `bot/caching.py` — the response cache used by `generate_ai_response` -/

/-- From `bot/config.py`: `CACHE_EXPIRY = 3600`. -/
def CACHE_EXPIRY : Nat := 3600

/-- From `bot/config.py`: `MAX_CACHE_ITEMS = 1000`. -/
def MAX_CACHE_ITEMS : Nat := 1000

/-- One `_response_cache` entry: a dict holding the cached value under key
data and its expiry timestamp under key expiry. -/
structure CacheItem where
  data : String
  expiry : Nat
  deriving Repr, DecidableEq

/-- The module-level `_response_cache` dict. -/
abbrev RespCache := List (String × CacheItem)

/-- The expression min of response-cache keys by stored expiry:
Python `min` returns the first element in iteration order attaining the
minimum, hence the strict `<` in the fold. -/
def oldestEntry : RespCache → Option (String × CacheItem)
  | [] => none
  | e :: es => some (es.foldl (fun best p => if p.2.expiry < best.2.expiry then p else best) e)

/-- Function `get_cached_response` of `bot/caching.py`: returns the cached value if
present and not expired; deletes and misses on an expired entry. Returns the
(possibly shrunk) cache alongside, since the Python function mutates the
module-level dict. -/
def get_cached_response (cache : RespCache) (now : Nat) (key : String) :
    Option String × RespCache :=
  match dictLookup cache key with
  | none => (none, cache)
  | some item =>
    if item.expiry < now then
      (none, dictDel cache key)
    else
      (some item.data, cache)

/-- Function `set_cached_response` of `bot/caching.py`: at `len >= MAX_CACHE_ITEMS` the
entry with the smallest expiry is deleted first (the dict is nonempty there,
so the `none` branch of `oldestEntry` is unreachable), then the new entry is
stored with expiry `now + expiry`. The Python function returns `True`;
nothing in its body can raise, so the `except` branch is dead and the model
returns just the new cache. -/
def set_cached_response (cache : RespCache) (now : Nat) (key value : String)
    (expiry : Nat) : RespCache :=
  let cache1 :=
    if MAX_CACHE_ITEMS ≤ cache.length then
      match oldestEntry cache with
      | some e => dictDel cache e.1
      | none => cache
    else cache
  dictSet cache1 key ⟨value, now + expiry⟩

/-- Function `clear_cache` of `bot/caching.py`: empties the cache, returning the old
count. -/
def clear_cache (cache : RespCache) : Nat × RespCache :=
  (cache.length, [])

/-! Embedding of the per-user conversation history of `bot/caching.py` -/

/-- A message dict, holding a role string and a content string. -/
structure ChatMsg where
  role : String
  content : String
  deriving Repr, DecidableEq

/-- The module-level `_conversation_history` dict (user id → message list). -/
abbrev ConvHistory := List (Int × List ChatMsg)

/-- The Python slice of the last limit elements, for a nonnegative `limit`: the last `limit`
elements — except that `lst[-0:]` is `lst[0:]`, the whole list. -/
def pyTailSlice {α : Type} (l : List α) (limit : Nat) : List α :=
  if limit = 0 then l else l.drop (l.length - limit)

/-- Function `get_conversation_history` of `bot/caching.py`: the last `limit`
messages of the history of the user (empty when the user is unknown). -/
def get_conversation_history (h : ConvHistory) (user_id : Int) (limit : Nat) :
    List ChatMsg :=
  match dictLookup h user_id with
  | none => []
  | some msgs => pyTailSlice msgs limit

/-- Function `add_to_conversation_history` of `bot/caching.py`: creates the
list for the user
when absent, drops the oldest message once the list holds 20, then appends.
(The `except` branch is dead: the body cannot raise.) -/
def add_to_conversation_history (h : ConvHistory) (user_id : Int) (message : ChatMsg) :
    ConvHistory :=
  let msgs := (dictLookup h user_id).getD []
  let msgs1 := if 20 ≤ msgs.length then msgs.drop 1 else msgs
  dictSet h user_id (msgs1 ++ [message])

/-! Embedding of `utils/cache_manager.py` — `TTLCache` -/

/-- Class `TTLCache`: an `OrderedDict` of `key ↦ (value, timestamp)` plus the
`max_size` and `ttl` fields set in `__init__`. The front of `entries` is the
least-recently-used binding, because `get` moves accessed bindings to the
back and `set` appends at the back. -/
structure TTLCache where
  entries : List (String × String × Nat)
  max_size : Nat
  ttl : Nat
  deriving Repr, DecidableEq

/-- Method `TTLCache.get`: a miss on absent keys; an expired entry
(`time.time() - timestamp > ttl`) is deleted and misses; a live entry is
moved to the back (recently used) and returned. `now - timestamp` is a
truncated `Nat` subtraction: for `now < timestamp` it yields `0 ≤ ttl`, not
expired, just as the negative Python difference is `≤ ttl`. -/
def TTLCache.get (c : TTLCache) (now : Nat) (key : String) :
    Option String × TTLCache :=
  match dictLookup c.entries key with
  | none => (none, c)
  | some vt =>
    if c.ttl < now - vt.2 then
      (none, { c with entries := dictDel c.entries key })
    else
      (some vt.1, { c with entries := dictMoveToEnd c.entries key })

/-- Method `TTLCache.set`: an existing binding of the key is deleted first; then, at
`len >= max_size`, `popitem(last=False)` drops the front (least recently
used) binding; finally the new binding is appended with the current
timestamp. (`popitem` on an empty dict would raise in Python; that needs
`max_size = 0`, and the claims below assume `0 < max_size`.) -/
def TTLCache.set (c : TTLCache) (now : Nat) (key value : String) : TTLCache :=
  let e1 := if (dictLookup c.entries key).isSome then dictDel c.entries key else c.entries
  let e2 := if c.max_size ≤ e1.length then e1.drop 1 else e1
  { c with entries := e2 ++ [(key, value, now)] }

/-- Method `TTLCache.clear`. -/
def TTLCache.clear (c : TTLCache) : TTLCache :=
  { c with entries := [] }

/-- One client operation on a `TTLCache`, for stating invariants over
arbitrary operation sequences. -/
inductive TTLOp where
  | get (now : Nat) (key : String)
  | set (now : Nat) (key value : String)
  | clear
  deriving Repr, DecidableEq

/-- Apply one operation, keeping the state `get` leaves behind. -/
def TTLCache.applyOp (c : TTLCache) : TTLOp → TTLCache
  | .get now key => (c.get now key).2
  | .set now key value => c.set now key value
  | .clear => c.clear

/-- Run a sequence of operations left to right. -/
def TTLCache.runOps (c : TTLCache) (ops : List TTLOp) : TTLCache :=
  ops.foldl TTLCache.applyOp c

/-! Embedding of `bot/games/guess.py` — number and word guessing -/

/-- The result dict of the guess functions, holding a status string and a
message string. -/
structure GuessResult where
  status : String
  message : String
  deriving Repr, DecidableEq

/-- The number-guess game dict produced by `start_number_guess` (`number` is
`random.randint(min_val, max_val)`, here an arbitrary `Int`). -/
structure NumberGame where
  number : Int
  attempts : Nat
  max_attempts : Nat
  range_min : Int
  range_max : Int
  deriving Repr, DecidableEq

/-- Function `make_number_guess`: each branch increments `attempts`; the status is
`"correct"`, `"wrong_too_high"` or `"wrong_too_low"` by comparing the guess
with the hidden number. The "correct" message interpolates the incremented
`attempts` (Python increments before building the f-string). Returns the
result dict and the mutated game dict. -/
def make_number_guess (g : NumberGame) (guess : Int) : GuessResult × NumberGame :=
  if guess = g.number then
    let g1 := { g with attempts := g.attempts + 1 }
    let gs := toString guess
    let ats := toString g1.attempts
    ({ status := "correct",
       message := s!"Correct! The number was {gs}. You got it in {ats} attempts!" }, g1)
  else if g.number < guess then
    ({ status := "wrong_too_high", message := "Too high! Try a lower number." },
     { g with attempts := g.attempts + 1 })
  else
    ({ status := "wrong_too_low", message := "Too low! Try a higher number." },
     { g with attempts := g.attempts + 1 })

/-- The word-guess game dict produced by `start_word_guess`; strings are
lists of characters, the `guessed_letters` set is a duplicate-free list
(membership and insertion are all the code uses). -/
structure WordGame where
  word : List Char
  display : List Char
  attempts : Nat
  max_attempts : Nat
  guessed_letters : List Char
  deriving Repr, DecidableEq

/-- The display-update loop of `make_word_guess`: position `i` shows the
character of the word when it equals the guessed letter or was already
revealed. -/
def updateDisplay (word display : List Char) (letter : Char) : List Char :=
  (word.zip display).map (fun p => if p.1 = letter ∨ p.2 ≠ '_' then p.1 else '_')

/-- Function `make_word_guess`: uppercases the letter; an already-guessed letter
returns early with status `"already_guessed"` and no state change; otherwise
the letter joins `guessed_letters` and the word/display/attempts logic of
the source runs (win, correct, lose, wrong). -/
def make_word_guess (g : WordGame) (letter0 : Char) : GuessResult × WordGame :=
  let letter := letter0.toUpper
  let ls := String.mk [letter]
  if letter ∈ g.guessed_letters then
    ({ status := "already_guessed", message := s!"You already guessed \x27{ls}\x27." }, g)
  else
    let g1 := { g with guessed_letters := g.guessed_letters ++ [letter] }
    if letter ∈ g1.word then
      let g2 := { g1 with display := updateDisplay g1.word g1.display letter }
      if '_' ∈ g2.display then
        ({ status := "correct", message := s!"Good guess! \x27{ls}\x27 is in the word." }, g2)
      else
        let ws := String.mk g2.word
        ({ status := "win", message := s!"Congratulations! You guessed the word: {ws}" }, g2)
    else
      let g2 := { g1 with attempts := g1.attempts + 1 }
      let ws := String.mk g2.word
      if g2.max_attempts ≤ g2.attempts then
        ({ status := "lose", message := s!"Game over! The word was: {ws}" }, g2)
      else
        ({ status := "wrong", message := s!"Sorry, \x27{ls}\x27 is not in the word." }, g2)

/-! Embedding of the key rotation state of `bot/ai_handler.py` -/

/-- From `bot/ai_handler.py` line 40: `MAX_CONSECUTIVE_ERRORS = 3`. -/
def MAX_CONSECUTIVE_ERRORS : Nat := 3

/-- The module-level globals `CURRENT_KEY_INDEX` and `CONSECUTIVE_ERRORS`
(both start at 0). There is one shared error counter, not one per key. -/
structure KeyRotState where
  currentKeyIndex : Nat
  consecutiveErrors : Nat
  deriving Repr, DecidableEq

/-- The `except` branch of `generate_ai_response` (lines 749-757):
`CONSECUTIVE_ERRORS += 1`, and only when the counter reaches
`MAX_CONSECUTIVE_ERRORS` does the key index advance by `(i + 1) % N`, the
counter resetting to 0. -/
def aiFailStep (numKeys : Nat) (s : KeyRotState) : KeyRotState :=
  let errs := s.consecutiveErrors + 1
  if MAX_CONSECUTIVE_ERRORS ≤ errs then
    { currentKeyIndex := (s.currentKeyIndex + 1) % numKeys, consecutiveErrors := 0 }
  else
    { currentKeyIndex := s.currentKeyIndex, consecutiveErrors := errs }

/-- The success path of `generate_ai_response` (line 733): the counter
resets, the key index is untouched. -/
def aiSuccessStep (s : KeyRotState) : KeyRotState :=
  { s with consecutiveErrors := 0 }

/-! Embedding of `generate_ai_response` from `bot/ai_handler.py`.

The function builds a message payload (system prompt, taught facts, language
hint, trimmed chat history) that only feeds the HTTP request body; the
outcome of that request is abstracted into `ApiOutcome`. What the model keeps
bit-for-bit is everything that touches the response cache and the key
rotation globals: the cache probe on the key user-id colon message-text, the
truthiness test on the cached value, the `.strip()`-and-cache on success,
the error counting/rotation and backup-model retry on failure. -/

/-- From `bot/config.py`: `DEFAULT_ERROR_MESSAGE`. -/
def DEFAULT_ERROR_MESSAGE : String :=
  "Oops! Something went wrong. Let me try again in a moment..."

/-- The literal returned at the end of the `except` branch of
`generate_ai_response`. -/
def CONNECTION_ERROR_MESSAGE : String :=
  "Sorry, I\x27m having trouble connecting right now. Please try again in a moment! 🙏"

/-- Outcome of the primary Groq HTTP call in `generate_ai_response`:
`ok content` is a 200 response whose JSON has a nonempty `choices` list with
`content` as the message text; `invalidFormat` is a 200 response without
one; `httpError` is a raised `httpx.HTTPError` / `json.JSONDecodeError` /
`KeyError`. -/
inductive ApiOutcome where
  | ok (content : String)
  | invalidFormat
  | httpError
  deriving Repr, DecidableEq

/-- The mutable module state `generate_ai_response` reads and writes: the
`bot/caching.py` response cache and the two rotation globals. -/
structure GenState where
  cache : RespCache
  keys : KeyRotState
  deriving Repr, DecidableEq

/-- What one call to `generate_ai_response` produced: the returned string,
the module state it left behind, and whether it issued any HTTP request to
the provider. -/
structure GenResult where
  response : String
  state : GenState
  apiCalled : Bool
  deriving Repr, DecidableEq

/-- The cache key: the user id, a colon, then the message text. -/
def genCacheKey (user_id : Int) (message_text : String) : String :=
  toString user_id ++ ":" ++ message_text

/-- The part of `generate_ai_response` after a cache miss (or a cached empty
string, which the `if cached_response:` truthiness test skips): the HTTP
call and its error handling. A successful call strips the content, caches it
under the same key and clears the error counter; an invalid-format 200
bumps the counter and returns `DEFAULT_ERROR_MESSAGE`; a raised error bumps
the counter, rotates the key at the threshold, then retries with the backup
model, caching and returning its stripped content on success, else returns
the canned connection-error string. -/
def genApiPath (numKeys : Nat) (st1 : GenState) (now : Nat) (cache_key : String)
    (outcome : ApiOutcome) (backupOutcome : Option String) : GenResult :=
  match outcome with
  | .ok content =>
    let ai := content.trim
    { response := ai,
      state := { cache := set_cached_response st1.cache now cache_key ai CACHE_EXPIRY,
                 keys := aiSuccessStep st1.keys },
      apiCalled := true }
  | .invalidFormat =>
    { response := DEFAULT_ERROR_MESSAGE,
      state := { st1 with keys := { st1.keys with
                   consecutiveErrors := st1.keys.consecutiveErrors + 1 } },
      apiCalled := true }
  | .httpError =>
    let ks := aiFailStep numKeys st1.keys
    match backupOutcome with
    | some content =>
      let ai := content.trim
      { response := ai,
        state := { cache := set_cached_response st1.cache now cache_key ai CACHE_EXPIRY,
                   keys := ks },
        apiCalled := true }
    | none =>
      { response := CONNECTION_ERROR_MESSAGE,
        state := { st1 with keys := ks },
        apiCalled := true }

/-- Function `generate_ai_response` for one logical request. Here `outcome`
is the result of the primary call and `backupOutcome` that of the retry
(`AI_MODELS["backup"]` is set and differs from the default model, so the
retry is always attempted on `httpError`; `none` means it too failed).
The cache probe on the user-id colon message-text key runs first; the Python
`if cached_response:` is a truthiness test, so only a non-`None` *and
nonempty* cached value returns early with no API call — a cached `""` falls
through to the HTTP call. -/
def generate_ai_response (numKeys : Nat) (st : GenState) (now : Nat)
    (user_id : Int) (message_text : String)
    (outcome : ApiOutcome) (backupOutcome : Option String) : GenResult :=
  let cache_key := genCacheKey user_id message_text
  let probe := get_cached_response st.cache now cache_key
  let st1 : GenState := { st with cache := probe.2 }
  match probe.1 with
  | some c =>
    if c ≠ "" then { response := c, state := st1, apiCalled := false }
    else genApiPath numKeys st1 now cache_key outcome backupOutcome
  | none => genApiPath numKeys st1 now cache_key outcome backupOutcome

/-! Embedding of `bot/modules/cache.py` — the LRU cache used by `get_ai_response` -/

/-- The module state of `bot/modules/cache.py`: the `OrderedDict` `cache`
(key → response) and the plain dict `cache_times` (key → store time). The
two are kept in sync by the functions of the module. -/
structure ModCache where
  cache : List (String × String)
  cache_times : List (String × Nat)
  deriving Repr, DecidableEq

/-- Function `get_cached_response` of `bot/modules/cache.py`: a present key older than
`CACHE_EXPIRY` is popped from both dicts and misses; a live one is moved to
the end of the `OrderedDict` (recently used) and returned. The
`cache_times[key]` read cannot fail on states built by this module
(`getD 0` stands for the in-sync value). -/
def modGetCachedResponse (st : ModCache) (now : Nat) (key : String) :
    Option String × ModCache :=
  match dictLookup st.cache key with
  | none => (none, st)
  | some resp =>
    let t := (dictLookup st.cache_times key).getD 0
    if CACHE_EXPIRY < now - t then
      (none, { cache := dictDel st.cache key, cache_times := dictDel st.cache_times key })
    else
      (some resp, { st with cache := dictMoveToEnd st.cache key })

/-- Function `cache_response` of `bot/modules/cache.py`: at `len >= MAX_CACHE_ITEMS`,
`popitem(last=False)` drops the front (least-recently-used) binding and its
timestamp, then the new binding and its timestamp are stored. -/
def modCacheResponse (st : ModCache) (now : Nat) (key resp : String) : ModCache :=
  let st1 :=
    if MAX_CACHE_ITEMS ≤ st.cache.length then
      match st.cache.head? with
      | some e => ModCache.mk (st.cache.drop 1) (dictDel st.cache_times e.1)
      | none => st
    else st
  { cache := dictSet st1.cache key resp,
    cache_times := dictSet st1.cache_times key now }

/-! Embedding of `bot/modules/ai_service.py` — `get_ai_response` with key rotation -/

/-- The five canned strings of `get_fallback_response`. -/
def fallback_responses : List String :=
  ["I\x27m having trouble connecting to my brain right now. Could you try again in a moment?",
   "Oops! I seem to be experiencing a temporary glitch. Please try again shortly.",
   "My thinking cap is a bit glitchy at the moment. Let\x27s chat again in a minute!",
   "I\x27m currently having a moment of digital reflection. Would you mind trying again soon?",
   "It looks like my neural networks need a quick reboot. Please try again in a bit!"]

/-- Function `get_fallback_response`: `random.choice` over the five canned strings,
the random draw passed in as an index. -/
def get_fallback_response (randIdx : Nat) : String :=
  fallback_responses.getD (randIdx % fallback_responses.length) ""

/-- The least-used-key selection (min of usage items by count): the first
key in dict order with the least usage count (Python `min` keeps the first
minimum), `none` on an empty dict (where Python `min` raises
`ValueError`). -/
def leastUsedKey (usage : List (String × Nat)) : Option String :=
  match usage with
  | [] => none
  | e :: es => some (es.foldl (fun best p => if p.2 < best.2 then p else best) e).1

/-- Increment of the usage count of one key. -/
def bumpUsage (usage : List (String × Nat)) (k : String) : List (String × Nat) :=
  usage.map (fun p => if p.1 == k then (p.1, p.2 + 1) else p)

/-- The module state of `bot/modules/ai_service.py`: the shared
`bot/modules/cache.py` state and the `api_key_usage` dict (initialised to
one zero count per configured key). -/
structure AiServiceState where
  mcache : ModCache
  usage : List (String × Nat)
  deriving Repr, DecidableEq

/-- Function `_make_groq_request`, with the HTTP interaction abstracted into
`oracle : key → Option response`: `some resp` is a 200 answer that parses
(the function then caches `resp` under `cache_key` and returns it), `none`
is any of the raised failures (non-200 status, parse error). -/
def makeGroqRequest (oracle : String → Option String) (st : AiServiceState)
    (now : Nat) (apiKey cache_key : String) : Option String × AiServiceState :=
  match oracle apiKey with
  | some resp => (some resp, { st with mcache := modCacheResponse st.mcache now cache_key resp })
  | none => (none, st)

/-- The retry `for` loop of `get_ai_response`: up to `fuel` =
`len(GROQ_API_KEYS) - 1` rounds; each round picks the least-used key other
than the current one, bumps its count, and tries the request, stopping on
success. -/
def aiRetryLoop (oracle : String → Option String) (st : AiServiceState)
    (now : Nat) (cache_key currentKey : String) (fuel : Nat) :
    Option String × AiServiceState :=
  match fuel with
  | 0 => (none, st)
  | fuel1 + 1 =>
    let others := st.usage.filter (fun p => p.1 != currentKey)
    match leastUsedKey others with
    | none => (none, st)
    | some k =>
      let st1 := { st with usage := bumpUsage st.usage k }
      match makeGroqRequest oracle st1 now k cache_key with
      | (some resp, st2) => (some resp, st2)
      | (none, st2) => aiRetryLoop oracle st2 now cache_key k fuel1

/-- Function `get_ai_response`: probes the cache under the key made of the
prompt, the language and the serialised history joined by underscores (the
serialised-history component is passed in as `historyStr`), picks the least-used key, tries the request,
then runs the retry loop over the other keys, and returns a canned fallback
string when every attempt failed. The result is `none` exactly when the
configured key pool is empty, where Python `min` over an empty dict raises
`ValueError` out of the function; in every other case the function returns
normally — failures are caught, never re-raised. The Python
`if cached:` truthiness test makes a cached empty string fall through to
the API path. -/
def get_ai_response (keys : List String) (oracle : String → Option String)
    (st : AiServiceState) (now : Nat) (prompt language historyStr : String)
    (randIdx : Nat) : Option (String × AiServiceState) :=
  let cache_key := prompt ++ "_" ++ language ++ "_" ++ historyStr
  let probe := modGetCachedResponse st.mcache now cache_key
  let st1 : AiServiceState := { st with mcache := probe.2 }
  let continueApi : AiServiceState → Option (String × AiServiceState) := fun s =>
    match leastUsedKey s.usage with
    | none => none
    | some k =>
      let s1 := { s with usage := bumpUsage s.usage k }
      match makeGroqRequest oracle s1 now k cache_key with
      | (some resp, s2) => some (resp, s2)
      | (none, s2) =>
        match aiRetryLoop oracle s2 now cache_key k (keys.length - 1) with
        | (some resp, s3) => some (resp, s3)
        | (none, s3) => some (get_fallback_response randIdx, s3)
  match probe.1 with
  | some c => if c ≠ "" then some (c, st1) else continueApi st1
  | none => continueApi st1

/-! Helper lemmas on the dict primitives -/

theorem dictLookup_nil {κ β : Type} [BEq κ] (k : κ) :
    dictLookup ([] : List (κ × β)) k = none := rfl

theorem dictLookup_cons_eq {κ β : Type} [BEq κ] [LawfulBEq κ]
    (p : κ × β) (l : List (κ × β)) (k : κ) (h : p.1 = k) :
    dictLookup (p :: l) k = some p.2 := by
  have hb : (p.1 == k) = true := beq_iff_eq.mpr h
  simp [dictLookup, List.find?_cons_of_pos, hb]

theorem dictLookup_cons_ne {κ β : Type} [BEq κ] [LawfulBEq κ]
    (p : κ × β) (l : List (κ × β)) (k : κ) (h : p.1 ≠ k) :
    dictLookup (p :: l) k = dictLookup l k := by
  have hb : (p.1 == k) = false := beq_false_of_ne h
  unfold dictLookup
  rw [List.find?_cons_of_neg _ (by simp [hb])]

theorem dictLookup_dictDel {κ β : Type} [BEq κ] [LawfulBEq κ]
    (l : List (κ × β)) (k : κ) : dictLookup (dictDel l k) k = none := by
  induction l with
  | nil => rfl
  | cons p l ih =>
    by_cases hpk : p.1 = k
    · have hb : (p.1 != k) = false := by simp [bne, hpk]
      simpa [dictDel, List.filter_cons, hb] using ih
    · have hb : (p.1 != k) = true := by simp [bne, hpk]
      simp only [dictDel, List.filter_cons, hb, if_true]
      rw [dictLookup_cons_ne _ _ _ hpk]
      exact ih

theorem dictSet_cons_ne {κ β : Type} [BEq κ] [LawfulBEq κ]
    (p : κ × β) (l : List (κ × β)) (k : κ) (v : β) (h : p.1 ≠ k) :
    dictSet (p :: l) k v = p :: dictSet l k v := by
  have hb : (p.1 == k) = false := beq_false_of_ne h
  simp only [dictSet, dictLookup_cons_ne _ _ _ h]
  by_cases hs : (dictLookup l k).isSome
  · simp [hs, hb]
  · simp [hs]

theorem dictLookup_dictSet {κ β : Type} [BEq κ] [LawfulBEq κ]
    (l : List (κ × β)) (k : κ) (v : β) : dictLookup (dictSet l k v) k = some v := by
  induction l with
  | nil =>
    show dictLookup ([] ++ [(k, v)]) k = some v
    exact dictLookup_cons_eq _ _ _ rfl
  | cons p l ih =>
    by_cases hpk : p.1 = k
    · have hs : (dictLookup (p :: l) k).isSome := by
        rw [dictLookup_cons_eq _ _ _ hpk]; rfl
      have hb : (p.1 == k) = true := beq_iff_eq.mpr hpk
      have hfp : (if (p.1 == k) = true then ((k, v) : κ × β) else p) = (k, v) := by
        simp [hb]
      simp only [dictSet, hs, if_true, List.map_cons, hfp]
      exact dictLookup_cons_eq _ _ _ rfl
    · rw [dictSet_cons_ne _ _ _ _ hpk, dictLookup_cons_ne _ _ _ hpk]
      exact ih

theorem dictLookup_map_replace {κ β : Type} [BEq κ] [LawfulBEq κ]
    (l : List (κ × β)) (k k' : κ) (v : β) (hkk : k' ≠ k) :
    dictLookup (l.map (fun p => if p.1 == k then (k, v) else p)) k' = dictLookup l k' := by
  induction l with
  | nil => rfl
  | cons p l ih =>
    by_cases hpk : p.1 = k
    · have hb : (p.1 == k) = true := beq_iff_eq.mpr hpk
      have hfp : (if (p.1 == k) = true then ((k, v) : κ × β) else p) = (k, v) := by
        simp [hb]
      have h1 : ((k, v) : κ × β).1 ≠ k' := Ne.symm hkk
      have h2 : p.1 ≠ k' := by rw [hpk]; exact Ne.symm hkk
      simp only [List.map_cons, hfp]
      rw [dictLookup_cons_ne _ _ _ h1, dictLookup_cons_ne _ _ _ h2]
      exact ih
    · have hb : (p.1 == k) = false := beq_false_of_ne hpk
      have hfp : (if (p.1 == k) = true then ((k, v) : κ × β) else p) = p := by
        simp [hb]
      simp only [List.map_cons, hfp]
      by_cases hp' : p.1 = k'
      · rw [dictLookup_cons_eq _ _ _ hp', dictLookup_cons_eq _ _ _ hp']
      · rw [dictLookup_cons_ne _ _ _ hp', dictLookup_cons_ne _ _ _ hp']
        exact ih

theorem dictLookup_append_ne {κ β : Type} [BEq κ] [LawfulBEq κ]
    (l : List (κ × β)) (k k' : κ) (v : β) (hkk : k' ≠ k) :
    dictLookup (l ++ [(k, v)]) k' = dictLookup l k' := by
  induction l with
  | nil =>
    show dictLookup [(k, v)] k' = none
    rw [dictLookup_cons_ne _ _ _ (Ne.symm hkk)]
    rfl
  | cons p l ih =>
    by_cases hp' : p.1 = k'
    · rw [List.cons_append, dictLookup_cons_eq _ _ _ hp', dictLookup_cons_eq _ _ _ hp']
    · rw [List.cons_append, dictLookup_cons_ne _ _ _ hp', dictLookup_cons_ne _ _ _ hp']
      exact ih

theorem dictLookup_dictSet_ne {κ β : Type} [BEq κ] [LawfulBEq κ]
    (l : List (κ × β)) (k k' : κ) (v : β) (hkk : k' ≠ k) :
    dictLookup (dictSet l k v) k' = dictLookup l k' := by
  unfold dictSet
  by_cases hs : (dictLookup l k).isSome
  · simp only [hs, if_true]
    exact dictLookup_map_replace _ _ _ _ hkk
  · simp only [hs, if_false]
    exact dictLookup_append_ne _ _ _ _ hkk


theorem dictLookup_mem_values {κ β : Type} [BEq κ] (l : List (κ × β)) (k : κ) (v : β)
    (h : dictLookup l k = some v) : ∃ p ∈ l, p.2 = v := by
  simp only [dictLookup, Option.map_eq_some'] at h
  obtain ⟨p, hp, hpv⟩ := h
  exact ⟨p, List.mem_of_find?_eq_some hp, hpv⟩

theorem length_dictMoveToEnd_le {κ β : Type} [BEq κ] (l : List (κ × β)) (k : κ) :
    (dictMoveToEnd l k).length ≤ l.length := by
  unfold dictMoveToEnd
  cases hf : l.find? (fun p => p.1 == k) with
  | none => exact le_refl _
  | some e =>
    have hmem : e ∈ l := List.mem_of_find?_eq_some hf
    have hpe := List.find?_some hf
    have hlt : (l.filter (fun p => p.1 != k)).length < l.length := by
      rw [List.length_filter_lt_length_iff_exists]
      exact ⟨e, hmem, by simp [bne, hpe]⟩
    simpa [List.length_append] using hlt

theorem TTLCache.get_max (c : TTLCache) (now : Nat) (key : String) :
    (c.get now key).2.max_size = c.max_size := by
  unfold TTLCache.get
  cases dictLookup c.entries key with
  | none => rfl
  | some vt =>
    by_cases hexp : c.ttl < now - vt.2
    · simp [hexp]
    · simp [hexp]

theorem TTLCache.get_length_le (c : TTLCache) (now : Nat) (key : String) :
    (c.get now key).2.entries.length ≤ c.entries.length := by
  unfold TTLCache.get
  cases dictLookup c.entries key with
  | none => exact le_refl _
  | some vt =>
    by_cases hexp : c.ttl < now - vt.2
    · simpa [hexp] using List.length_filter_le _ _
    · simpa [hexp] using length_dictMoveToEnd_le c.entries key

theorem TTLCache.set_length (c : TTLCache) (now : Nat) (key value : String)
    (hmax : 0 < c.max_size) (h : c.entries.length ≤ c.max_size) :
    (c.set now key value).entries.length ≤ c.max_size := by
  simp only [TTLCache.set]
  generalize hg :
    (if (dictLookup c.entries key).isSome then dictDel c.entries key else c.entries) = e1
  have h1 : e1.length ≤ c.entries.length := by
    rw [← hg]
    split
    · exact List.length_filter_le _ _
    · exact le_refl _
  by_cases h2 : c.max_size ≤ e1.length
  · simp only [h2, if_true, List.length_append, List.length_drop, List.length_cons,
      List.length_nil]
    omega
  · simp only [h2, if_false, List.length_append, List.length_cons, List.length_nil]
    omega

theorem TTLCache.applyOp_bound (c : TTLCache) (op : TTLOp)
    (hmax : 0 < c.max_size) (h : c.entries.length ≤ c.max_size) :
    (c.applyOp op).entries.length ≤ c.max_size ∧
    (c.applyOp op).max_size = c.max_size := by
  cases op with
  | get now key =>
    exact ⟨le_trans (TTLCache.get_length_le c now key) h, TTLCache.get_max c now key⟩
  | set now key value =>
    exact ⟨TTLCache.set_length c now key value hmax h, rfl⟩
  | clear =>
    exact ⟨by simp [TTLCache.applyOp, TTLCache.clear], rfl⟩

/-! Claim theorems -/

/-- C9: in the word-guessing game, `make_word_guess` with a letter already in
the `guessed_letters` set of the game returns status `"already_guessed"` and
leaves the entire game state unchanged. (`guessed_letters` only ever holds
uppercase letters — `start_word_guess` starts it empty and every insertion
is uppercased — which the hypothesis `hup` records.) -/
theorem make_word_guess_already_guessed (g : WordGame) (letter : Char)
    (hup : ∀ c ∈ g.guessed_letters, c.toUpper = c)
    (h : letter ∈ g.guessed_letters) :
    (make_word_guess g letter).1.status = "already_guessed" ∧
    (make_word_guess g letter).2 = g := by
  have hl : letter.toUpper = letter := hup letter h
  unfold make_word_guess
  simp [hl, h]

/-- Witness for C9 at a concrete game state. -/
theorem make_word_guess_already_guessed_witness :
    (make_word_guess
        { word := ['A', 'P', 'P', 'L', 'E'], display := ['A', '_', '_', '_', '_'],
          attempts := 1, max_attempts := 6, guessed_letters := ['A', 'Z'] }
        'A').1.status = "already_guessed" ∧
    (make_word_guess
        { word := ['A', 'P', 'P', 'L', 'E'], display := ['A', '_', '_', '_', '_'],
          attempts := 1, max_attempts := 6, guessed_letters := ['A', 'Z'] }
        'A').2 =
      { word := ['A', 'P', 'P', 'L', 'E'], display := ['A', '_', '_', '_', '_'],
        attempts := 1, max_attempts := 6, guessed_letters := ['A', 'Z'] } :=
  make_word_guess_already_guessed _ 'A' (by decide) (by decide)

/-- C10: every `make_number_guess` call increments `attempts` by exactly one
(and changes nothing else in the game state); the status is `"correct"` iff
the guess equals the hidden number, `"wrong_too_high"` iff it is greater and
`"wrong_too_low"` iff it is smaller; and `max_attempts` is never consulted —
the result is the same for every value of that field, so no guess is
rejected for exceeding the limit. -/
theorem make_number_guess_spec (g : NumberGame) (guess : Int) :
    (make_number_guess g guess).2 = { g with attempts := g.attempts + 1 } ∧
    ((make_number_guess g guess).1.status = "correct" ↔ guess = g.number) ∧
    ((make_number_guess g guess).1.status = "wrong_too_high" ↔ g.number < guess) ∧
    ((make_number_guess g guess).1.status = "wrong_too_low" ↔ guess < g.number) ∧
    (∀ m : Nat, (make_number_guess { g with max_attempts := m } guess).1 =
      (make_number_guess g guess).1) := by
  rcases lt_trichotomy guess g.number with h | h | h
  · have h1 : guess ≠ g.number := ne_of_lt h
    have h2 : ¬ g.number < guess := not_lt_of_gt h
    refine ⟨?_, ?_, ?_, ?_, ?_⟩ <;>
      simp [make_number_guess, h, h1, h2]
  · subst h
    refine ⟨?_, ?_, ?_, ?_, ?_⟩ <;>
      simp [make_number_guess, lt_irrefl]
  · have h1 : guess ≠ g.number := ne_of_gt h
    have h2 : ¬ guess < g.number := not_lt_of_gt h
    refine ⟨?_, ?_, ?_, ?_, ?_⟩ <;>
      simp [make_number_guess, h, h1, h2]

/-- C5: a cache lookup never returns an expired entry. For every key whose
stored expiry has passed at lookup time (`expiry < now`, the strict
comparison of the source), `get_cached_response` returns `none` and removes the entry:
the resulting cache is the old one with the key deleted, and a further
lookup of the key misses. -/
theorem get_cached_response_expired (cache : RespCache) (now : Nat) (key : String)
    (item : CacheItem) (hfind : dictLookup cache key = some item)
    (hexp : item.expiry < now) :
    get_cached_response cache now key = (none, dictDel cache key) ∧
    dictLookup (get_cached_response cache now key).2 key = none := by
  have hget : get_cached_response cache now key = (none, dictDel cache key) := by
    unfold get_cached_response
    rw [hfind]
    simp [hexp]
  refine ⟨hget, ?_⟩
  rw [hget]
  exact dictLookup_dictDel cache key

/-- Witness for C5 at a concrete cache. -/
theorem get_cached_response_expired_witness :
    get_cached_response [("7:hello", ⟨"cached reply", 50⟩)] 60 "7:hello" =
      (none, dictDel [("7:hello", ⟨"cached reply", 50⟩)] "7:hello") ∧
    dictLookup (get_cached_response [("7:hello", ⟨"cached reply", 50⟩)] 60 "7:hello").2
      "7:hello" = none :=
  get_cached_response_expired [("7:hello", CacheItem.mk "cached reply" 50)] 60 "7:hello"
    (CacheItem.mk "cached reply" 50) (by decide) (by decide)

/-- C7: round-trip of the response cache. Storing `value` under `key` at
time `t` and looking `key` up at any time `tq` within the expiry window
(`tq ≤ t + expiry`, so the stored expiry `t + expiry` has not passed)
returns `value` — for every starting cache, including one at capacity where
the store first evicts. -/
theorem set_then_get_roundtrip (cache : RespCache) (t tq : Nat)
    (key value : String) (expiry : Nat) (h : tq ≤ t + expiry) :
    (get_cached_response (set_cached_response cache t key value expiry) tq key).1 =
      some value := by
  have hlook : dictLookup (set_cached_response cache t key value expiry) key =
      some (CacheItem.mk value (t + expiry)) := dictLookup_dictSet _ key _
  unfold get_cached_response
  rw [hlook]
  simp [Nat.not_lt_of_le h]

/-- Witness for C7 at a concrete cache and times. -/
theorem set_then_get_roundtrip_witness :
    (get_cached_response
        (set_cached_response [("old", ⟨"x", 10⟩)] 100 "3:hey" "sure!" 3600)
        200 "3:hey").1 = some "sure!" :=
  set_then_get_roundtrip [("old", ⟨"x", 10⟩)] 100 200 "3:hey" "sure!" 3600 (by decide)

/-- C4: the cache is bounded. From any `TTLCache` whose entry count is
within its configured capacity (in particular the empty cache `setup_cache`
creates), every sequence of `get`, `set` and `clear` operations leaves the
entry count at most `max_size` — so after every store the bound holds. -/
theorem ttlcache_bounded (c : TTLCache) (ops : List TTLOp)
    (hmax : 0 < c.max_size) (h : c.entries.length ≤ c.max_size) :
    (c.runOps ops).entries.length ≤ c.max_size := by
  induction ops generalizing c with
  | nil => exact h
  | cons op ops ih =>
    have hb := TTLCache.applyOp_bound c op hmax h
    have hmax' : 0 < (c.applyOp op).max_size := by rw [hb.2]; exact hmax
    have h' : (c.applyOp op).entries.length ≤ (c.applyOp op).max_size := by
      rw [hb.2]; exact hb.1
    have hrun : TTLCache.runOps c (op :: ops) = TTLCache.runOps (c.applyOp op) ops := rfl
    rw [hrun]
    calc (TTLCache.runOps (c.applyOp op) ops).entries.length
        ≤ (c.applyOp op).max_size := ih (c.applyOp op) hmax' h'
      _ = c.max_size := hb.2

/-- Witness for C4: a capacity-2 cache filled by three stores and probed. -/
theorem ttlcache_bounded_witness :
    (TTLCache.runOps { entries := [], max_size := 2, ttl := 3600 }
      [TTLOp.set 1 "a" "1", TTLOp.set 2 "b" "2", TTLOp.get 3 "a",
       TTLOp.set 4 "c" "3", TTLOp.clear, TTLOp.set 5 "d" "4"]).entries.length ≤ 2 :=
  ttlcache_bounded { entries := [], max_size := 2, ttl := 3600 } _ (by decide) (by decide)

/-- C6: when a store of a fresh key finds the cache at full capacity,
exactly one existing entry is evicted before the new entry is appended, and
it is the front entry of the ordered dict — the least-recently-used one,
since `get` moves every accessed entry to the back and `set` appends at the
back. The entry count is unchanged: one out, one in. -/
theorem ttlcache_set_evicts_lru (c : TTLCache) (now : Nat) (key value : String)
    (hmax : 0 < c.max_size) (hfull : c.max_size ≤ c.entries.length)
    (hfresh : dictLookup c.entries key = none) :
    ∃ lru rest, c.entries = lru :: rest ∧
      (c.set now key value).entries = rest ++ [(key, value, now)] ∧
      (c.set now key value).entries.length = c.entries.length := by
  have hne : c.entries ≠ [] := by
    intro hnil
    rw [hnil] at hfull
    simp at hfull
    omega
  obtain ⟨lru, rest, hcons⟩ := List.exists_cons_of_ne_nil hne
  have hset : (c.set now key value).entries = rest ++ [(key, value, now)] := by
    simp only [TTLCache.set, hfresh, Option.isSome_none, Bool.false_eq_true, if_false,
      hfull, if_true]
    simp [hcons]
  refine ⟨lru, rest, hcons, hset, ?_⟩
  rw [hset, hcons]
  simp

/-- Witness for C6: a full capacity-2 cache receiving a fresh key. -/
theorem ttlcache_set_evicts_lru_witness :
    ∃ lru rest,
      (TTLCache.mk [("a", "1", 1), ("b", "2", 2)] 2 3600).entries = lru :: rest ∧
      ((TTLCache.mk [("a", "1", 1), ("b", "2", 2)] 2 3600).set 9 "c" "3").entries =
        rest ++ [("c", "3", 9)] ∧
      ((TTLCache.mk [("a", "1", 1), ("b", "2", 2)] 2 3600).set 9 "c" "3").entries.length =
        (TTLCache.mk [("a", "1", 1), ("b", "2", 2)] 2 3600).entries.length :=
  ttlcache_set_evicts_lru (TTLCache.mk [("a", "1", 1), ("b", "2", 2)] 2 3600) 9 "c" "3"
    (by decide) (by decide) (by decide)

/-- C8 counterexample to the claim as stated: `get_conversation_history`
does *not* always return at most `limit` messages. With `limit = 0`,
the Python slice at minus zero is the slice from zero — the whole list — so a one-message
history yields one message, not zero. -/
theorem get_conversation_history_limit_zero :
    ¬ (get_conversation_history [(0, [⟨"user", "hi"⟩])] 0 0).length ≤ 0 := by
  decide

/-- C8 (amended): after every `add_to_conversation_history` call, each
stored user history holds at most 20 messages (the oldest being dropped
when the bound is reached), provided every history respected the bound
before (true of all reachable states, which start empty); and for every
`limit ≥ 1`, `get_conversation_history` returns at most `limit` messages
which form a suffix of the stored history — the most recent ones, in
order. (At `limit = 0` the slice `lst[-0:]` returns the whole history
instead.) -/
theorem conversation_history_spec (h : ConvHistory) (user_id : Int)
    (message : ChatMsg) (limit : Nat)
    (hbound : ∀ u msgs, dictLookup h u = some msgs → msgs.length ≤ 20)
    (hlim : 1 ≤ limit) :
    (∀ u msgs, dictLookup (add_to_conversation_history h user_id message) u = some msgs →
      msgs.length ≤ 20) ∧
    (get_conversation_history h user_id limit).length ≤ limit ∧
    (get_conversation_history h user_id limit).IsSuffix
      ((dictLookup h user_id).getD []) := by
  refine ⟨?_, ?_, ?_⟩
  · intro u msgs hu
    by_cases huid : u = user_id
    · subst huid
      rw [add_to_conversation_history, dictLookup_dictSet] at hu
      have hold : ((dictLookup h u).getD []).length ≤ 20 := by
        cases hl : dictLookup h u with
        | none => simp
        | some msgs0 => simpa using hbound u msgs0 hl
      rw [← Option.some_inj.mp hu]
      split
      · simp only [List.length_append, List.length_drop, List.length_cons, List.length_nil]
        omega
      · simp only [List.length_append, List.length_cons, List.length_nil]
        omega
    · rw [add_to_conversation_history,
        dictLookup_dictSet_ne _ _ _ _ (fun hc => huid hc)] at hu
      exact hbound u msgs hu
  · rw [get_conversation_history]
    cases dictLookup h user_id with
    | none => simp
    | some msgs =>
      simp only [pyTailSlice, Nat.one_le_iff_ne_zero.mp hlim, if_false,
        List.length_drop]
      omega
  · rw [get_conversation_history]
    cases dictLookup h user_id with
    | none => simp
    | some msgs =>
      simp only [pyTailSlice, Option.getD_some]
      split
      · exact List.suffix_refl msgs
      · exact List.drop_suffix _ msgs

/-- Witness for C8 at a concrete history and limit. -/
theorem conversation_history_spec_witness :
    (∀ u msgs,
      dictLookup (add_to_conversation_history [(4, [⟨"user", "a"⟩, ⟨"assistant", "b"⟩])]
        4 ⟨"user", "c"⟩) u = some msgs → msgs.length ≤ 20) ∧
    (get_conversation_history [(4, [⟨"user", "a"⟩, ⟨"assistant", "b"⟩])] 4 1).length ≤ 1 ∧
    (get_conversation_history [(4, [⟨"user", "a"⟩, ⟨"assistant", "b"⟩])] 4 1).IsSuffix
      ((dictLookup [(4, [⟨"user", "a"⟩, ⟨"assistant", "b"⟩])] 4).getD []) :=
  conversation_history_spec [(4, [⟨"user", "a"⟩, ⟨"assistant", "b"⟩])] 4 ⟨"user", "c"⟩ 1
    (by
      intro u msgs hu
      obtain ⟨p, hp, hpv⟩ := dictLookup_mem_values _ _ _ hu
      have hp4 : p = (4, [⟨"user", "a"⟩, ⟨"assistant", "b"⟩]) := by simpa using hp
      rw [← hpv, hp4]
      decide)
    (by decide)

/-- C1 counterexample to the claim as stated: a single request failure does
*not* advance the credential index. With the 6-key pool of the repository and
fresh globals (`CURRENT_KEY_INDEX = 0`, `CONSECUTIVE_ERRORS = 0`), one
failure leaves the index at 0 rather than advancing it to
`(0 + 1) % 6 = 1` — the error branch only rotates once the shared counter
reaches `MAX_CONSECUTIVE_ERRORS = 3`. -/
theorem aiFailStep_no_advance :
    (aiFailStep 6 { currentKeyIndex := 0, consecutiveErrors := 0 }).currentKeyIndex ≠
      (0 + 1) % 6 := by
  decide

/-- C1 (amended): request failures increment one shared consecutive-error
counter (reset on success, not tracked per credential), and only every
`MAX_CONSECUTIVE_ERRORS = 3`rd consecutive failure advances the credential
index in round-robin order (`index + 1` modulo the pool size). Hence after
`k` consecutive failures from a clean counter, the index has advanced by
`k / 3` steps modulo `numKeys` and the counter stands at `k % 3`. -/
theorem aiFailStep_iterate (numKeys i k : Nat) (hi : i < numKeys) :
    (aiFailStep numKeys)^[k] { currentKeyIndex := i, consecutiveErrors := 0 } =
      { currentKeyIndex := (i + k / 3) % numKeys, consecutiveErrors := k % 3 } := by
  induction k with
  | zero =>
    simp [Nat.mod_eq_of_lt hi]
  | succ k ih =>
    rw [Function.iterate_succ_apply', ih]
    have h3 : k % 3 = 0 ∨ k % 3 = 1 ∨ k % 3 = 2 := by omega
    rcases h3 with h3 | h3 | h3
    · have hd : (k + 1) / 3 = k / 3 := by omega
      have hm : (k + 1) % 3 = 1 := by omega
      simp [aiFailStep, MAX_CONSECUTIVE_ERRORS, h3, hd, hm]
    · have hd : (k + 1) / 3 = k / 3 := by omega
      have hm : (k + 1) % 3 = 2 := by omega
      simp [aiFailStep, MAX_CONSECUTIVE_ERRORS, h3, hd, hm]
    · have hd : (k + 1) / 3 = k / 3 + 1 := by omega
      have hm : (k + 1) % 3 = 0 := by omega
      simp only [aiFailStep, MAX_CONSECUTIVE_ERRORS, h3, hd, hm]
      simp only [Nat.reduceAdd, Nat.reduceLeDiff, le_refl, if_true]
      rw [Nat.mod_add_mod]
      rw [show i + k / 3 + 1 = i + (k / 3 + 1) from by omega]

/-- Witness for the amended C1 theorem: seven straight failures on the 6-key
pool advance the index twice (to key 2) and leave one counted error. -/
theorem aiFailStep_iterate_witness :
    (aiFailStep 6)^[7] { currentKeyIndex := 0, consecutiveErrors := 0 } =
      { currentKeyIndex := (0 + 7 / 3) % 6, consecutiveErrors := 7 % 3 } :=
  aiFailStep_iterate 6 0 7 (by decide)

theorem aiRetryLoop_all_fail (oracle : String → Option String)
    (hfail : ∀ k, oracle k = none) :
    ∀ (fuel : Nat) (st : AiServiceState) (now : Nat) (ck cur : String),
      ∃ st2, aiRetryLoop oracle st now ck cur fuel = (none, st2) := by
  intro fuel
  induction fuel with
  | zero =>
    intro st now ck cur
    exact ⟨st, rfl⟩
  | succ fuel ih =>
    intro st now ck cur
    simp only [aiRetryLoop]
    cases hlk : leastUsedKey (st.usage.filter (fun p => p.1 != cur)) with
    | none => exact ⟨st, rfl⟩
    | some k =>
      simp only [makeGroqRequest, hfail k]
      exact ih _ now ck k

/-- C2: if every credential fails within one logical request, the call
returns one of the fixed canned fallback texts of the module rather than raising:
`get_ai_response` completes normally (`some`-result; the only raising path
is an empty key pool, excluded by `hne`) and its returned string is the
drawn element of `fallback_responses`. `hmiss` says the request is not
served from cache, i.e. the request really exercises the credentials. -/
theorem get_ai_response_all_fail_fallback (keys : List String)
    (oracle : String → Option String) (st : AiServiceState) (now : Nat)
    (prompt language historyStr : String) (randIdx : Nat)
    (hmiss : (modGetCachedResponse st.mcache now
      (prompt ++ "_" ++ language ++ "_" ++ historyStr)).1 = none)
    (hne : st.usage ≠ [])
    (hfail : ∀ k, oracle k = none) :
    (∃ st2, get_ai_response keys oracle st now prompt language historyStr randIdx =
      some (get_fallback_response randIdx, st2)) ∧
    get_fallback_response randIdx ∈ fallback_responses := by
  constructor
  · simp only [get_ai_response]
    rw [hmiss]
    cases hu : st.usage with
    | nil => exact absurd hu hne
    | cons u us =>
      simp only [hu, leastUsedKey]
      simp only [makeGroqRequest, hfail]
      obtain ⟨st2, hloop⟩ := aiRetryLoop_all_fail oracle hfail (keys.length - 1) _ now _ _
      rw [hloop]
      exact ⟨st2, rfl⟩
  · have h5 : randIdx % fallback_responses.length < fallback_responses.length :=
      Nat.mod_lt _ (by decide)
    rw [get_fallback_response, List.getD_eq_getElem _ _ h5]
    exact List.getElem_mem _

/-- Witness for C2: a two-key pool whose every request fails serves the
fallback text. -/
theorem get_ai_response_all_fail_fallback_witness :
    (∃ st2, get_ai_response ["k1", "k2"] (fun _ => none)
        ⟨⟨[], []⟩, [("k1", 0), ("k2", 0)]⟩ 0 "hi" "en" "no_history" 0 =
      some (get_fallback_response 0, st2)) ∧
    get_fallback_response 0 ∈ fallback_responses :=
  get_ai_response_all_fail_fallback ["k1", "k2"] (fun _ => none)
    ⟨⟨[], []⟩, [("k1", 0), ("k2", 0)]⟩ 0 "hi" "en" "no_history" 0
    rfl (by decide) (fun _ => rfl)

/-- C3 counterexample to the claim as stated: a non-expired cached entry can
exist for the key and yet `generate_ai_response` still makes an API call.
The Python guard is `if cached_response:` — a truthiness test — so a cached
*empty string* (a blank API reply, stripped and cached on an earlier
success) is treated as a miss: here the entry `"5:hi" ↦ ("", expiry 100)`
is present and unexpired at time 0, yet the call hits the API and returns
the fresh response instead of the cached value. -/
theorem generate_ai_response_cached_empty_calls_api :
    dictLookup (GenState.mk [("5:hi", CacheItem.mk "" 100)] ⟨0, 0⟩).cache
      (genCacheKey 5 "hi") = some (CacheItem.mk "" 100) ∧
    ¬ (CacheItem.mk "" 100).expiry < 0 ∧
    (generate_ai_response 6 (GenState.mk [("5:hi", CacheItem.mk "" 100)] ⟨0, 0⟩) 0 5 "hi"
      (ApiOutcome.ok "yo") none).apiCalled = true := by
  refine ⟨by decide, by decide, ?_⟩
  rfl

/-- C3 (amended): successful responses are cached under the user-id colon
message-text key, and whenever a non-expired cached entry with
a *non-empty* value exists for that key, `generate_ai_response` returns the
cached value without making any API call. (A cached empty string is skipped
by the `if cached_response:` truthiness test.) -/
theorem generate_ai_response_cache_spec (numKeys : Nat) (st : GenState) (now : Nat)
    (user_id : Int) (message_text : String) (outcome : ApiOutcome)
    (backup : Option String) (content : String) :
    (∀ c, (get_cached_response st.cache now (genCacheKey user_id message_text)).1 = some c →
      c ≠ "" →
      (generate_ai_response numKeys st now user_id message_text outcome backup).response = c ∧
      (generate_ai_response numKeys st now user_id message_text outcome backup).apiCalled
        = false) ∧
    ((get_cached_response st.cache now (genCacheKey user_id message_text)).1 = none →
      outcome = ApiOutcome.ok content →
      dictLookup
        (generate_ai_response numKeys st now user_id message_text outcome backup).state.cache
        (genCacheKey user_id message_text) =
          some (CacheItem.mk content.trim (now + CACHE_EXPIRY)) ∧
      (generate_ai_response numKeys st now user_id message_text outcome backup).response
        = content.trim ∧
      (generate_ai_response numKeys st now user_id message_text outcome backup).apiCalled
        = true) := by
  constructor
  · intro c hc hne
    simp only [generate_ai_response]
    rw [hc]
    simp [hne]
  · intro hnone hok
    simp only [generate_ai_response]
    rw [hnone, hok]
    simp only [genApiPath]
    exact ⟨dictLookup_dictSet _ _ _, trivial, trivial⟩

/-- Witness for the amended C3 theorem: a hit on a non-empty cached value
(left), and a successful call caching its stripped response (right). -/
theorem generate_ai_response_cache_spec_witness :
    ((generate_ai_response 6 (GenState.mk [("5:hi", CacheItem.mk "hello" 100)] ⟨0, 0⟩)
        0 5 "hi" ApiOutcome.invalidFormat none).response = "hello" ∧
      (generate_ai_response 6 (GenState.mk [("5:hi", CacheItem.mk "hello" 100)] ⟨0, 0⟩)
        0 5 "hi" ApiOutcome.invalidFormat none).apiCalled = false) ∧
    (dictLookup (generate_ai_response 6 (GenState.mk [] ⟨0, 0⟩) 0 5 "hi"
        (ApiOutcome.ok " yo ") none).state.cache (genCacheKey 5 "hi") =
      some (CacheItem.mk " yo ".trim (0 + CACHE_EXPIRY)) ∧
      (generate_ai_response 6 (GenState.mk [] ⟨0, 0⟩) 0 5 "hi"
        (ApiOutcome.ok " yo ") none).response = " yo ".trim ∧
      (generate_ai_response 6 (GenState.mk [] ⟨0, 0⟩) 0 5 "hi"
        (ApiOutcome.ok " yo ") none).apiCalled = true) :=
  ⟨(generate_ai_response_cache_spec 6 (GenState.mk [("5:hi", CacheItem.mk "hello" 100)] ⟨0, 0⟩)
      0 5 "hi" ApiOutcome.invalidFormat none "").1 "hello" (by decide) (by decide),
   (generate_ai_response_cache_spec 6 (GenState.mk [] ⟨0, 0⟩)
      0 5 "hi" (ApiOutcome.ok " yo ") none " yo ").2 (by decide) rfl⟩

end ThePerfect
